import Mathlib

/-!
Shallow embedding of `temba/flows/views.py` (flow CRUD views of a messaging
platform): broadcast/start admission control, keyword-trigger reconciliation,
revision listing and saving, translation import validation, results export,
and the activity-chart aggregation, together with proofs of the documented
properties.
-/

namespace Rapidpro

/-! ### Activity chart: histogram bucket selection (ActivityChart.get_context_data) -/

/-- The three bucket granularities used by the activity-chart histogram
(`date_trunc` of hour, day or week). -/
inductive HistogramBucket
  | hour
  | day
  | week
deriving DecidableEq, Repr

/-- Microseconds in one day; Python `timedelta` comparisons have microsecond
resolution, so spans are modelled as an integer number of microseconds. -/
def microsPerDay : Int := 86400000000

/-- Bucket granularity chosen from the span `end_date - start_date`:
`if date_range < timedelta(days=21)` hourly, `elif < timedelta(days=500)`
daily, else weekly. -/
def chooseHistogramBucket (dateRange : Int) : HistogramBucket :=
  if dateRange < 21 * microsPerDay then .hour
  else if dateRange < 500 * microsPerDay then .day
  else .week

/-! ### Activity chart: run counts by exit type (ActivityChart.get_context_data) -/

/-- Exit type of a flow run as keyed by `EXIT_TYPES`: database `NULL` maps to
`active`, and the completed/interrupted/expired codes map to their names. -/
inductive ExitType
  | active
  | completed
  | interrupted
  | expired
deriving DecidableEq, Repr

/-- The per-exit-type count shown in the context: the grouped query rows are
written into the context one by one (`context[key] = count`), so the last row
for a given exit type wins, and any exit type with no row is filled with 0. -/
def exitTypeCount (rows : List (ExitType × Int)) (e : ExitType) : Int :=
  match (rows.filter (fun r => r.1 == e)).getLast? with
  | some r => r.2
  | none => 0

/-- `total_runs`: the sum of the `count__sum` values over all grouped rows. -/
def totalRuns (rows : List (ExitType × Int)) : Int :=
  (rows.map (fun r => r.2)).sum

/-! ### Keyword trigger validation (BaseFlowForm.clean_keyword_triggers) -/

/-- A keyword trigger row as seen by the duplicate check: its keyword, owning
flow id, and the archived/active flags. -/
structure OrgTrigger where
  keyword : String
  flowId : Nat
  isArchived : Bool
  isActive : Bool
deriving DecidableEq, Repr

/-- Maximum keyword length (`Trigger.KEYWORD_MAX_LEN`). -/
def KEYWORD_MAX_LEN : Nat := 16

/-- A word character, modelling the regex class `\w` (letters, digits and the
underscore; the source uses the Unicode class, modelled here for ASCII). -/
def isWordChar (c : Char) : Bool :=
  c.isAlphanum || c == '_'

/-- Python `str.lower()` (for the ASCII range). -/
def pyLower (s : String) : String :=
  String.mk (s.data.map Char.toLower)

/-- Python `str.strip()`: remove leading and trailing whitespace. -/
def pyStrip (s : String) : String :=
  String.mk (((s.data.dropWhile Char.isWhitespace).reverse.dropWhile
    Char.isWhitespace).reverse)

/-- `keyword.lower().strip()`. -/
def normalizeKeyword (kw : String) : String :=
  pyStrip (pyLower kw)

/-- Whether a normalized keyword fails the format check: it must match
`^\w+$` and be at most `KEYWORD_MAX_LEN` characters. -/
def keywordWrongFormat (kw : String) : Bool :=
  !(kw.data.all isWordChar) || decide (kw.length > KEYWORD_MAX_LEN)

/-- Whether an org trigger collides with a submitted keyword: same keyword
case-insensitively, not archived, active, and — when the form is bound to an
existing flow — not attached to that same flow (`exclude(flow=instance.pk)`). -/
def triggerCollides (instanceFlow : Option Nat) (kw : String) (t : OrgTrigger) : Bool :=
  pyLower t.keyword == kw && !t.isArchived && t.isActive &&
    (match instanceFlow with
     | some fid => !(t.flowId == fid)
     | none => true)

/-- One iteration of the keyword loop: normalize, skip empty keywords, record
wrong-format keywords, then classify as duplicate or cleaned. The accumulator
holds `(wrong_format, duplicates, cleaned_keywords)` in submission order. -/
def keywordStep (ts : List OrgTrigger) (instanceFlow : Option Nat)
    (acc : List String × List String × List String) (kw0 : String) :
    List String × List String × List String :=
  let kw := normalizeKeyword kw0
  if kw = "" then acc
  else
    let wf := if keywordWrongFormat kw then acc.1 ++ [kw] else acc.1
    if (ts.filter (triggerCollides instanceFlow kw)) ≠ [] then
      (wf, acc.2.1 ++ [kw], acc.2.2)
    else
      (wf, acc.2.1, acc.2.2 ++ [kw])

/-- Error message for duplicate keywords. -/
def duplicateKeywordMsg (dups : List String) : String :=
  if dups.length > 1 then
    "The keywords \"" ++ String.intercalate ", " dups ++ "\" are already used for another flow"
  else
    "The keyword \"" ++ String.intercalate ", " dups ++ "\" is already used for another flow"

/-- Error message for badly formatted keywords. -/
def wrongFormatMsg (kws : List String) : String :=
  "\"" ++ String.intercalate ", " kws ++
    "\" must be a single word, less than 16 characters, containing only letter and numbers"

/-- `BaseFlowForm.clean_keyword_triggers`: processes the submitted keywords in
order, raises on wrong format first, then on duplicates, otherwise returns the
comma-joined cleaned keywords. -/
def clean_keyword_triggers (ts : List OrgTrigger) (instanceFlow : Option Nat)
    (submitted : List String) : Except String String :=
  let res := submitted.foldl (keywordStep ts instanceFlow) ([], [], [])
  if res.1 ≠ [] then .error (wrongFormatMsg res.1)
  else if res.2.1 ≠ [] then .error (duplicateKeywordMsg res.2.1)
  else .ok (String.intercalate "," res.2.2)

/-! ### Keyword trigger reconciliation (FlowCRUDL.Update.post_save) -/

/-- A trigger row of the flow being updated, as touched by reconciliation:
its keyword, whether it is a keyword-type trigger, its archived flag, and
whether it has attached contact groups. -/
structure Trigger where
  keyword : String
  isKeywordType : Bool
  isArchived : Bool
  hasGroups : Bool
deriving DecidableEq, Repr

/-- The filter defining `existing_keywords`: keyword-type, not archived, no
groups. -/
def isActiveKeywordTrigger (t : Trigger) : Bool :=
  t.isKeywordType && !t.isArchived && !t.hasGroups

/-- `existing_keywords`: keywords of the active, group-less keyword triggers. -/
def existingKeywords (ts : List Trigger) : List String :=
  (ts.filter isActiveKeywordTrigger).map (fun t => t.keyword)

/-- `removed_keywords = existing_keywords.difference(keywords)`. -/
def removedKeywords (ts : List Trigger) (newKws : List String) : List String :=
  (existingKeywords ts).filter (fun k => !(newKws.contains k))

/-- `added_keywords = keywords.difference(existing_keywords)` (as a duplicate
free list). -/
def addedKeywords (ts : List Trigger) (newKws : List String) : List String :=
  (newKws.filter (fun k => !((existingKeywords ts).contains k))).dedup

/-- Archiving pass: every non-archived, group-less trigger whose keyword was
removed gets `is_archived=True` (the update filter has no trigger-type
restriction). -/
def archiveRemoved (ts : List Trigger) (removed : List String) : List Trigger :=
  ts.map (fun t =>
    if removed.contains t.keyword && !t.isArchived && !t.hasGroups then
      { t with isArchived := true }
    else t)

/-- `archived_keywords`: keywords of archived, group-less keyword-type
triggers, computed once after the archiving pass. -/
def archivedKeywords (ts : List Trigger) : List String :=
  (ts.filter (fun t => t.isKeywordType && t.isArchived && !t.hasGroups)).map
    (fun t => t.keyword)

/-- Handling of one added keyword: if it is among the archived keywords,
un-archive every group-less trigger with that keyword (the update filter has
no type or archived restriction); otherwise create a fresh keyword trigger. -/
def applyAdd (archKws : List String) (ts : List Trigger) (kw : String) : List Trigger :=
  if archKws.contains kw then
    ts.map (fun t =>
      if t.keyword == kw && !t.hasGroups then { t with isArchived := false } else t)
  else
    ts ++ [⟨kw, true, false, false⟩]

/-- `FlowCRUDL.Update.post_save` keyword reconciliation: archive the removed
keywords, then process the added keywords in sorted order, reactivating
archived triggers or creating new ones. -/
def reconcile (ts : List Trigger) (newKws : List String) : List Trigger :=
  let ts1 := archiveRemoved ts (removedKeywords ts newKws)
  let archKws := archivedKeywords ts1
  (List.insertionSort (fun a b => a ≤ b) (addedKeywords ts newKws)).foldl
    (applyAdd archKws) ts1

/-- There is an active (keyword-type, unarchived, group-less) trigger for
`kw`. -/
def ActiveKw (ts : List Trigger) (kw : String) : Prop :=
  ∃ t ∈ ts, t.keyword = kw ∧ t.isKeywordType = true ∧ t.isArchived = false ∧
    t.hasGroups = false

/-- There is a keyword-type, group-less trigger for `kw` (archived or not). -/
def PresentKw (ts : List Trigger) (kw : String) : Prop :=
  ∃ t ∈ ts, t.keyword = kw ∧ t.isKeywordType = true ∧ t.hasGroups = false

/-! ### Revision listing (FlowCRUDL.Revisions.get) -/

/-- Outcome of migrating a legacy revision to the final legacy version and
validating it.

Modelled from the spec: `FlowRevision.get_migrated_definition` and
`FlowRevision.validate_legacy_definition` live in the models layer, outside
this file; only their outcome matters here — success, an expected
`ValueError`, or an unexpected exception with its message. -/
inductive LegacyValidation
  | valid
  | valueError
  | otherError (msg : String)
deriving DecidableEq, Repr

/-- A stored flow revision: its revision number, specification version
(compared like version strings, major then minor), and the outcome of legacy
validation. -/
structure FlowRevision where
  revision : Nat
  specVersion : Nat × Nat
  validation : LegacyValidation
deriving DecidableEq, Repr

/-- Version-string comparison on (major, minor) pairs. -/
def verLE (a b : Nat × Nat) : Bool :=
  decide (a.1 < b.1) || (a.1 == b.1 && decide (a.2 ≤ b.2))

/-- Modelled from the spec: `Flow.INITIAL_GOFLOW_VERSION`, the first modern
("goflow") specification version; revisions at or above it are trusted as
pre-validated. -/
def INITIAL_GOFLOW_VERSION : Nat × Nat := (13, 0)

/-- A revision at or above the initial goflow version. -/
def isModernRevision (r : FlowRevision) : Bool :=
  verLE INITIAL_GOFLOW_VERSION r.specVersion

/-- Ordering used by `order_by("-revision")`: descending revision number. -/
def revGE (a b : FlowRevision) : Prop :=
  b.revision ≤ a.revision

instance : DecidableRel revGE :=
  fun a b => Nat.decLe b.revision a.revision

instance : IsTotal FlowRevision revGE :=
  ⟨fun a b => (Nat.le_total b.revision a.revision).elim Or.inl Or.inr⟩

instance : IsTrans FlowRevision revGE :=
  ⟨fun _ _ _ hab hbc => Nat.le_trans hbc hab⟩

/-- `flow.revisions.all().order_by("-revision")[:100]`: the at most 100
highest-numbered revisions, in descending order. -/
def consideredRevisions (revs : List FlowRevision) : List FlowRevision :=
  (List.insertionSort revGE revs).take 100

/-- One loop iteration of the revision listing: modern revisions are appended
without validation; legacy revisions are appended when valid, silently culled
on `ValueError`, and culled with an error-log entry on any other exception.
The accumulator is `(results, error log)`. -/
def revisionsListStep (acc : List Nat × List String) (r : FlowRevision) :
    List Nat × List String :=
  if isModernRevision r then (acc.1 ++ [r.revision], acc.2)
  else
    match r.validation with
    | .valid => (acc.1 ++ [r.revision], acc.2)
    | .valueError => acc
    | .otherError msg => (acc.1, acc.2 ++ [msg])

/-- `FlowCRUDL.Revisions.get` without a revision id: fold the listing loop
over the considered revisions, returning the JSON results and the error log.
Total by construction: the request never raises. -/
def revisionsGet (revs : List FlowRevision) : List Nat × List String :=
  (consideredRevisions revs).foldl revisionsListStep ([], [])

/-- A revision the listing includes: modern, or legacy and valid. -/
def revisionIncluded (r : FlowRevision) : Bool :=
  isModernRevision r || r.validation == .valid

/-- The error-log entries contributed by one revision: none for modern
revisions, the exception message for a legacy revision failing with an
unexpected error, nothing for an expected `ValueError`. -/
def revisionLogEntry (r : FlowRevision) : List String :=
  if isModernRevision r then []
  else
    match r.validation with
    | .otherError msg => [msg]
    | _ => []

/-! ### Revision save (FlowCRUDL.Revisions.post) -/

/-- The flow document state touched by a revision save: its current
specification version, the last editor, and the stored revisions. -/
structure FlowDoc where
  specVersion : Nat
  savedBy : String
  revisions : List Nat
deriving DecidableEq, Repr

/-- Outcome of `Flow.save_revision`. -/
inductive SaveOutcome
  | success
  | versionConflict
  | userConflict (otherUser : String)
deriving DecidableEq, Repr

/-- Modelled from the spec: `Flow.save_revision` lives in the models layer,
outside this file. It compares against the concurrency markers: if the last
known editor differs from the requester it raises the user-conflict
exception naming the other editor; if the specification version moved
forward since the client loaded the definition it raises the
version-conflict exception; otherwise it appends a new revision and records
the requester as the last editor. Conflicts mutate nothing. -/
def save_revision (doc : FlowDoc) (requester : String) (clientVersion : Nat) :
    SaveOutcome × FlowDoc :=
  if doc.savedBy ≠ requester then (.userConflict doc.savedBy, doc)
  else if clientVersion < doc.specVersion then (.versionConflict, doc)
  else (.success, ⟨doc.specVersion, requester, doc.revisions ++ [clientVersion]⟩)

/-- An HTTP JSON response: status field, user-facing description and HTTP
status code. -/
structure ApiResponse where
  status : String
  description : String
  httpStatus : Nat
deriving DecidableEq, Repr

/-- The version-conflict message shown by `Revisions.post`. -/
def versionConflictMsg : String :=
  "Your flow has been upgraded to the latest version. In order to continue editing, please refresh your browser."

/-- The user-conflict message shown by `Revisions.post`, naming the other
editor. -/
def userConflictMsg (otherUser : String) : String :=
  otherUser ++ " is currently editing this Flow. Your changes will not be saved until you refresh your browser."

/-- `FlowCRUDL.Revisions.post`: run the save and translate each conflict
exception into a failure response with HTTP status 400 and the matching
user-facing message; success returns the mutated document. -/
def revisionsPost (doc : FlowDoc) (requester : String) (clientVersion : Nat) :
    ApiResponse × FlowDoc :=
  match save_revision doc requester clientVersion with
  | (.success, doc2) => (⟨"success", "", 200⟩, doc2)
  | (.versionConflict, doc2) => (⟨"failure", versionConflictMsg, 400⟩, doc2)
  | (.userConflict other, doc2) => (⟨"failure", userConflictMsg other, 400⟩, doc2)

/-! ### Broadcast admission control (FlowCRUDL.Broadcast) -/

/-- The recipient mode of the broadcast form. -/
inductive RecipientsMode
  | select
  | query
deriving DecidableEq, Repr

/-- The submitted broadcast form data. -/
structure BroadcastInput where
  recipientsMode : RecipientsMode
  omniboxContacts : List Nat
  omniboxGroups : List Nat
  contactQuery : String
  restartParticipants : Bool
  includeActive : Bool
deriving DecidableEq, Repr

/-- The flow/org state consulted by `BroadcastForm.clean`. -/
structure BroadcastFlow where
  isStarting : Bool
  orgIsSuspended : Bool
  orgIsFlagged : Bool
deriving DecidableEq, Repr

/-- The "already being started" validation message. -/
def alreadyStartingMsg : String :=
  "This flow is already being started, please wait until that process is complete before starting more contacts."

/-- The suspended-workspace validation message. -/
def suspendedMsg : String :=
  "Sorry, your workspace is currently suspended. To enable starting flows, please contact support."

/-- The flagged-workspace validation message. -/
def flaggedMsg : String :=
  "Sorry, your workspace is currently flagged. To enable starting flows, please contact support."

/-- `clean_contact_query`: only checked in query mode; an empty (stripped)
query and a query the contact-search grammar rejects are errors. The parse
function stands for `parse_query` in the contact-search service. -/
def contactQueryErrors (parseQuery : String → Except String String)
    (input : BroadcastInput) : List String :=
  match input.recipientsMode with
  | .query =>
    if input.contactQuery.trim = "" then ["Contact query is required"]
    else
      match parseQuery input.contactQuery with
      | .ok _ => []
      | .error e => [e]
  | .select => []

/-- `clean_omnibox`: in select mode at least one contact or group must be
given. -/
def omniboxErrors (input : BroadcastInput) : List String :=
  match input.recipientsMode with
  | .select =>
    if input.omniboxContacts.isEmpty && input.omniboxGroups.isEmpty then
      ["You must specify at least one contact or one group to start a flow."]
    else []
  | .query => []

/-- `BroadcastForm.clean`: reject when the flow already has an unfinished
start, then when the org is suspended, then when it is flagged. -/
def broadcastCleanErrors (flow : BroadcastFlow) : List String :=
  if flow.isStarting then [alreadyStartingMsg]
  else if flow.orgIsSuspended then [suspendedMsg]
  else if flow.orgIsFlagged then [flaggedMsg]
  else []

/-- All validation errors of the broadcast form: field-level errors plus the
form-level `clean` errors (Django collects them all; the form is valid only
when this list is empty). -/
def broadcastFormErrors (flow : BroadcastFlow)
    (parseQuery : String → Except String String) (input : BroadcastInput) :
    List String :=
  contactQueryErrors parseQuery input ++ omniboxErrors input ++
    broadcastCleanErrors flow

/-- The flow-start request handed to `flow.async_start` on success. -/
structure FlowStartRequest where
  groups : List Nat
  contacts : List Nat
  query : Option String
  restartParticipants : Bool
  includeActive : Bool
deriving DecidableEq, Repr

/-- `FlowCRUDL.Broadcast`: `save` (and hence `flow.async_start`, which
creates the FlowStart) runs only when the form validated; otherwise no start
request is made. -/
def broadcastSubmit (flow : BroadcastFlow)
    (parseQuery : String → Except String String) (input : BroadcastInput) :
    Option FlowStartRequest :=
  if broadcastFormErrors flow parseQuery input = [] then
    match input.recipientsMode with
    | .query =>
      some ⟨[], [], some ((parseQuery input.contactQuery).toOption.getD ""),
        input.restartParticipants, input.includeActive⟩
    | .select =>
      some ⟨input.omniboxGroups, input.omniboxContacts, none,
        input.restartParticipants, input.includeActive⟩
  else none

/-! ### Translation import validation (ImportTranslation.UploadForm.clean_po_file) -/

/-- The header information extracted from an uploaded PO catalog; an empty
language code models a header with no declared language. -/
structure PoInfo where
  languageCode : String
  languageName : String
deriving DecidableEq, Repr

/-- Validation errors of the PO upload form. -/
inductive PoFileError
  | invalidPo
  | matchesBaseLanguage (langName : String)
  | unsupportedLanguage (langName : String)
deriving DecidableEq, Repr

/-- `clean_po_file`: an unparsable file is rejected; a declared language equal
to the flow base language is rejected; a declared language that is not one of
the configured org languages is rejected. `po` is `none` when
`po_get_info` raised. -/
def clean_po_file (po : Option PoInfo) (baseLanguage : String)
    (orgLanguages : List String) : Except PoFileError Unit :=
  match po with
  | none => .error .invalidPo
  | some info =>
    if info.languageCode ≠ "" then
      if info.languageCode == baseLanguage then
        .error (.matchesBaseLanguage info.languageName)
      else if !(orgLanguages.contains info.languageCode) then
        .error (.unsupportedLanguage info.languageName)
      else .ok ()
    else .ok ()

/-- The import step runs only when the upload form validated: a rejected
catalog is never saved. -/
def importTranslationSubmit (po : Option PoInfo) (baseLanguage : String)
    (orgLanguages : List String) : Option PoInfo :=
  match clean_po_file po baseLanguage orgLanguages with
  | .ok _ => po
  | .error _ => none

/-! ### Results export (FlowCRUDL.ExportResults.form_valid) -/

/-- A results-export task row: id, creator, finished flag. -/
structure ExportTask where
  id : Nat
  createdBy : String
  isFinished : Bool
deriving DecidableEq, Repr

/-- Modelled from the spec: `ExportFlowResultsTask.get_recent_unfinished`
lives in the models layer, outside this file; it returns a recent unfinished
results-export task of the org when one exists. -/
def get_recent_unfinished (tasks : List ExportTask) : Option ExportTask :=
  tasks.find? (fun t => !t.isFinished)

/-- The already-in-progress message, naming the user who started the
existing export. -/
def alreadyInProgressMsg (username : String) : String :=
  "There is already an export in progress, started by " ++ username ++
    ". You must wait for that export to complete before starting another."

/-- The confirmation message for a newly enqueued export. -/
def preparingExportMsg (username : String) : String :=
  "We are preparing your export. We will e-mail you at " ++ username ++
    " when it is ready."

/-- Result of the export view: the user messages, the export-task table, and
the task ids handed to the async worker after the transaction commits
(`on_transaction_commit`). -/
structure ExportOutcome where
  messages : List String
  tasks : List ExportTask
  postCommitEnqueues : List Nat
deriving DecidableEq, Repr

/-- `FlowCRUDL.ExportResults.form_valid`: when a recent unfinished export
exists, only show the already-in-progress message; otherwise create exactly
one task row and enqueue it after commit. -/
def exportResultsFormValid (tasks : List ExportTask) (user : String)
    (newId : Nat) : ExportOutcome :=
  match get_recent_unfinished tasks with
  | some existing => ⟨[alreadyInProgressMsg existing.createdBy], tasks, []⟩
  | none =>
    ⟨[preparingExportMsg user], tasks ++ [⟨newId, user, false⟩], [newId]⟩

end Rapidpro

namespace Rapidpro

/-! ### Theorems -/

/-- C2: the activity-chart histogram granularity is chosen exactly by the
threshold table: a span strictly under 21 days selects hourly buckets, a span
of at least 21 and strictly under 500 days selects daily buckets, and a span
of at least 500 days selects weekly buckets. -/
theorem activity_chart_bucket_thresholds (s : Int) :
    (s < 21 * microsPerDay → chooseHistogramBucket s = .hour) ∧
    (21 * microsPerDay ≤ s → s < 500 * microsPerDay → chooseHistogramBucket s = .day) ∧
    (500 * microsPerDay ≤ s → chooseHistogramBucket s = .week) := by
  refine ⟨fun h => ?_, fun h1 h2 => ?_, fun h => ?_⟩
  · rw [chooseHistogramBucket, if_pos h]
  · rw [chooseHistogramBucket, if_neg (by simp only [microsPerDay] at h1 ⊢; omega),
      if_pos h2]
  · rw [chooseHistogramBucket, if_neg (by simp only [microsPerDay] at h ⊢; omega),
      if_neg (by simp only [microsPerDay] at h ⊢; omega)]

/-- Witness for C2 at concrete spans of 20, 100 and 600 days. -/
theorem activity_chart_bucket_thresholds_witness :
    chooseHistogramBucket (20 * microsPerDay) = .hour ∧
    chooseHistogramBucket (100 * microsPerDay) = .day ∧
    chooseHistogramBucket (600 * microsPerDay) = .week :=
  ⟨(activity_chart_bucket_thresholds (20 * microsPerDay)).1
      (by norm_num [microsPerDay]),
   (activity_chart_bucket_thresholds (100 * microsPerDay)).2.1
      (by norm_num [microsPerDay]) (by norm_num [microsPerDay]),
   (activity_chart_bucket_thresholds (600 * microsPerDay)).2.2
      (by norm_num [microsPerDay])⟩

/-- C4: a save hitting a version conflict yields a failure response with the
version-conflict message and HTTP 400 and leaves the document unchanged; a
save hitting a user conflict yields a failure response naming the other
editor with HTTP 400 and leaves the document unchanged. -/
theorem revisions_post_conflicts (doc : FlowDoc) (requester : String)
    (clientVersion : Nat) :
    (doc.savedBy = requester → clientVersion < doc.specVersion →
      revisionsPost doc requester clientVersion =
        (⟨"failure", versionConflictMsg, 400⟩, doc)) ∧
    (doc.savedBy ≠ requester →
      revisionsPost doc requester clientVersion =
        (⟨"failure", userConflictMsg doc.savedBy, 400⟩, doc)) := by
  constructor
  · intro heq hlt
    simp [revisionsPost, save_revision, heq, hlt]
  · intro hne
    simp [revisionsPost, save_revision, hne]

/-- Witness for C4: a version conflict at client version 1 against server
version 2, and a user conflict between editors bob and ann. -/
theorem revisions_post_conflicts_witness :
    revisionsPost ⟨2, "ann", [7]⟩ "ann" 1 =
      (⟨"failure", versionConflictMsg, 400⟩, ⟨2, "ann", [7]⟩) ∧
    revisionsPost ⟨2, "bob", [7]⟩ "ann" 2 =
      (⟨"failure", userConflictMsg "bob", 400⟩, ⟨2, "bob", [7]⟩) :=
  ⟨(revisions_post_conflicts ⟨2, "ann", [7]⟩ "ann" 1).1 rfl (by decide),
   (revisions_post_conflicts ⟨2, "bob", [7]⟩ "ann" 2).2 (by decide)⟩

/-- C6: a translation catalog whose declared language equals the flow base
language is rejected by form validation and never saved, and likewise one
whose declared language is not among the configured org languages. -/
theorem import_translation_language_rejected (info : PoInfo)
    (baseLanguage : String) (orgLanguages : List String) :
    (info.languageCode ≠ "" → info.languageCode = baseLanguage →
      clean_po_file (some info) baseLanguage orgLanguages =
        .error (.matchesBaseLanguage info.languageName) ∧
      importTranslationSubmit (some info) baseLanguage orgLanguages = none) ∧
    (info.languageCode ≠ "" → info.languageCode ≠ baseLanguage →
      info.languageCode ∉ orgLanguages →
      clean_po_file (some info) baseLanguage orgLanguages =
        .error (.unsupportedLanguage info.languageName) ∧
      importTranslationSubmit (some info) baseLanguage orgLanguages = none) := by
  constructor
  · intro hne heq
    subst heq
    have h : clean_po_file (some info) info.languageCode orgLanguages =
        .error (.matchesBaseLanguage info.languageName) := by
      simp [clean_po_file, hne]
    exact ⟨h, by simp [importTranslationSubmit, h]⟩
  · intro hne hneb hnotin
    have h : clean_po_file (some info) baseLanguage orgLanguages =
        .error (.unsupportedLanguage info.languageName) := by
      simp [clean_po_file, hne, hneb, hnotin]
    exact ⟨h, by simp [importTranslationSubmit, h]⟩

/-- Witness for C6: a catalog declared in the base language eng, and a
catalog declared in spa while only eng and fra are configured. -/
theorem import_translation_language_rejected_witness :
    clean_po_file (some ⟨"eng", "English"⟩) "eng" ["fra"] =
      .error (.matchesBaseLanguage "English") ∧
    clean_po_file (some ⟨"spa", "Spanish"⟩) "eng" ["eng", "fra"] =
      .error (.unsupportedLanguage "Spanish") :=
  ⟨((import_translation_language_rejected ⟨"eng", "English"⟩ "eng" ["fra"]).1
      (by decide) rfl).1,
   ((import_translation_language_rejected ⟨"spa", "Spanish"⟩ "eng" ["eng", "fra"]).2
      (by decide) (by decide) (by decide)).1⟩

/-- C8: when a recent unfinished export exists the user only gets the
already-in-progress message naming its creator and no task is created or
enqueued; otherwise exactly one task is created and enqueued after the
transaction commits. -/
theorem export_results_admission (tasks : List ExportTask) (user : String)
    (newId : Nat) :
    (∀ t, get_recent_unfinished tasks = some t →
      exportResultsFormValid tasks user newId =
        ⟨[alreadyInProgressMsg t.createdBy], tasks, []⟩) ∧
    (get_recent_unfinished tasks = none →
      exportResultsFormValid tasks user newId =
        ⟨[preparingExportMsg user], tasks ++ [⟨newId, user, false⟩], [newId]⟩) := by
  constructor
  · intro t ht
    simp [exportResultsFormValid, ht]
  · intro ht
    simp [exportResultsFormValid, ht]

/-- Witness for C8: one unfinished export started by bob blocks a new export;
with only finished exports a new task row is created and enqueued. -/
theorem export_results_admission_witness :
    exportResultsFormValid [⟨1, "bob", false⟩] "ann" 2 =
      ⟨[alreadyInProgressMsg "bob"], [⟨1, "bob", false⟩], []⟩ ∧
    exportResultsFormValid [⟨1, "bob", true⟩] "ann" 2 =
      ⟨[preparingExportMsg "ann"], [⟨1, "bob", true⟩, ⟨2, "ann", false⟩], [2]⟩ :=
  ⟨(export_results_admission [⟨1, "bob", false⟩] "ann" 2).1 ⟨1, "bob", false⟩ rfl,
   (export_results_admission [⟨1, "bob", true⟩] "ann" 2).2 rfl⟩

/-- C1: whenever the flow already has an unfinished FlowStart, the broadcast
form fails validation with the already-being-started message — for every
recipient specification and flag combination — and no start request is
handed to async_start, so no FlowStart is created. -/
theorem broadcast_rejected_when_starting (flow : BroadcastFlow)
    (parseQuery : String → Except String String) (input : BroadcastInput)
    (h : flow.isStarting = true) :
    alreadyStartingMsg ∈ broadcastFormErrors flow parseQuery input ∧
    broadcastSubmit flow parseQuery input = none := by
  have hmem : alreadyStartingMsg ∈ broadcastFormErrors flow parseQuery input := by
    simp [broadcastFormErrors, broadcastCleanErrors, h]
  refine ⟨hmem, ?_⟩
  have hne : broadcastFormErrors flow parseQuery input ≠ [] := by
    intro hnil
    rw [hnil] at hmem
    simp at hmem
  simp [broadcastSubmit, hne]

/-- Witness for C1: a flow with an unfinished start, a parser accepting every
query, and a select-mode submission with one contact. -/
theorem broadcast_rejected_when_starting_witness :
    alreadyStartingMsg ∈
      broadcastFormErrors ⟨true, false, false⟩ (fun s => .ok s)
        ⟨.select, [1], [], "", false, false⟩ ∧
    broadcastSubmit ⟨true, false, false⟩ (fun s => .ok s)
        ⟨.select, [1], [], "", false, false⟩ = none :=
  broadcast_rejected_when_starting ⟨true, false, false⟩ (fun s => .ok s)
    ⟨.select, [1], [], "", false, false⟩ rfl

end Rapidpro

namespace Rapidpro

/-- C5 counterexample: a flow that already has an active, non-archived
trigger for the keyword start accepts the very same keyword when it is
submitted again for that same flow — the duplicate check excludes the
triggers of the flow being edited — so the claimed rejection does not
happen. -/
theorem clean_keyword_triggers_same_flow_accepted :
    clean_keyword_triggers [⟨"start", 1, false, true⟩] (some 1) ["Start"] =
      .ok "start" := by
  rfl

/-- C5 amended: a submitted keyword is rejected as a duplicate within the
organization exactly when some active, non-archived trigger with that
normalized keyword is attached to a different flow than the one being
edited; triggers of the flow itself are excluded from the check. -/
theorem clean_keyword_triggers_rejects_other_flow (ts : List OrgTrigger)
    (fid : Nat) (kw : String)
    (hne : normalizeKeyword kw ≠ "")
    (hfmt : keywordWrongFormat (normalizeKeyword kw) = false)
    (hdup : ts.filter (triggerCollides (some fid) (normalizeKeyword kw)) ≠ []) :
    clean_keyword_triggers ts (some fid) [kw] =
      .error (duplicateKeywordMsg [normalizeKeyword kw]) := by
  simp [clean_keyword_triggers, keywordStep, hne, hfmt, hdup]

/-- Witness for the amended C5: the keyword Start collides with an active
trigger for start owned by a different flow and is rejected. -/
theorem clean_keyword_triggers_rejects_other_flow_witness :
    clean_keyword_triggers [⟨"start", 2, false, true⟩] (some 1) ["Start"] =
      .error (duplicateKeywordMsg [normalizeKeyword "Start"]) :=
  clean_keyword_triggers_rejects_other_flow [⟨"start", 2, false, true⟩] 1 "Start"
    (by decide) (by decide) (by decide)

theorem exitTypeCount_cons_self (rs : List (ExitType × Int)) (e : ExitType)
    (c : Int) (h : ∀ b ∈ rs, b.1 ≠ e) : exitTypeCount ((e, c) :: rs) e = c := by
  have hf : rs.filter (fun r => r.1 == e) = [] := by
    apply List.filter_eq_nil_iff.mpr
    intro b hb
    simp [h b hb]
  simp [exitTypeCount, List.filter_cons, hf]

theorem exitTypeCount_cons_ne (rs : List (ExitType × Int)) (p : ExitType × Int)
    (e : ExitType) (h : p.1 ≠ e) :
    exitTypeCount (p :: rs) e = exitTypeCount rs e := by
  simp [exitTypeCount, List.filter_cons, h]

theorem exitTypeCount_eq_zero (rs : List (ExitType × Int)) (e : ExitType)
    (h : ∀ b ∈ rs, b.1 ≠ e) : exitTypeCount rs e = 0 := by
  have hf : rs.filter (fun r => r.1 == e) = [] := by
    apply List.filter_eq_nil_iff.mpr
    intro b hb
    simp [h b hb]
  simp [exitTypeCount, hf]

/-- C9: the reported total run count equals the sum of the four per-exit-type
counts, where an exit type with no stored tally contributes zero; the grouped
rows carry pairwise distinct exit types. -/
theorem activity_chart_total_runs (rows : List (ExitType × Int))
    (h : rows.Pairwise (fun a b => a.1 ≠ b.1)) :
    totalRuns rows =
      exitTypeCount rows .active + exitTypeCount rows .completed +
        exitTypeCount rows .interrupted + exitTypeCount rows .expired := by
  induction rows with
  | nil => simp [totalRuns, exitTypeCount]
  | cons p rs ih =>
    rcases List.pairwise_cons.mp h with ⟨hp, hrs⟩
    have ihe := ih hrs
    rcases p with ⟨e, c⟩
    have hself : exitTypeCount ((e, c) :: rs) e = c :=
      exitTypeCount_cons_self rs e c (fun b hb => (hp b hb).symm)
    have htot : totalRuns ((e, c) :: rs) = c + totalRuns rs := by
      simp [totalRuns]
    cases e with
    | active =>
      have hz : exitTypeCount rs ExitType.active = 0 :=
        exitTypeCount_eq_zero rs _ (fun b hb => (hp b hb).symm)
      rw [htot, hself,
        exitTypeCount_cons_ne rs (ExitType.active, c) .completed (by simp),
        exitTypeCount_cons_ne rs (ExitType.active, c) .interrupted (by simp),
        exitTypeCount_cons_ne rs (ExitType.active, c) .expired (by simp), ihe, hz]
      ring
    | completed =>
      have hz : exitTypeCount rs ExitType.completed = 0 :=
        exitTypeCount_eq_zero rs _ (fun b hb => (hp b hb).symm)
      rw [htot, hself,
        exitTypeCount_cons_ne rs (ExitType.completed, c) .active (by simp),
        exitTypeCount_cons_ne rs (ExitType.completed, c) .interrupted (by simp),
        exitTypeCount_cons_ne rs (ExitType.completed, c) .expired (by simp), ihe, hz]
      ring
    | interrupted =>
      have hz : exitTypeCount rs ExitType.interrupted = 0 :=
        exitTypeCount_eq_zero rs _ (fun b hb => (hp b hb).symm)
      rw [htot, hself,
        exitTypeCount_cons_ne rs (ExitType.interrupted, c) .active (by simp),
        exitTypeCount_cons_ne rs (ExitType.interrupted, c) .completed (by simp),
        exitTypeCount_cons_ne rs (ExitType.interrupted, c) .expired (by simp), ihe, hz]
      ring
    | expired =>
      have hz : exitTypeCount rs ExitType.expired = 0 :=
        exitTypeCount_eq_zero rs _ (fun b hb => (hp b hb).symm)
      rw [htot, hself,
        exitTypeCount_cons_ne rs (ExitType.expired, c) .active (by simp),
        exitTypeCount_cons_ne rs (ExitType.expired, c) .completed (by simp),
        exitTypeCount_cons_ne rs (ExitType.expired, c) .interrupted (by simp), ihe, hz]
      ring

/-- Witness for C9 at a concrete tally with two exit types present. -/
theorem activity_chart_total_runs_witness :
    totalRuns [(ExitType.active, 2), (ExitType.expired, 3)] =
      exitTypeCount [(ExitType.active, 2), (ExitType.expired, 3)] .active +
        exitTypeCount [(ExitType.active, 2), (ExitType.expired, 3)] .completed +
        exitTypeCount [(ExitType.active, 2), (ExitType.expired, 3)] .interrupted +
        exitTypeCount [(ExitType.active, 2), (ExitType.expired, 3)] .expired :=
  activity_chart_total_runs [(ExitType.active, 2), (ExitType.expired, 3)]
    (by decide)

end Rapidpro

namespace Rapidpro

theorem revisionsFold_spec (l : List FlowRevision) (acc : List Nat × List String) :
    l.foldl revisionsListStep acc =
      (acc.1 ++ (l.filter revisionIncluded).map (fun r => r.revision),
        acc.2 ++ l.flatMap revisionLogEntry) := by
  induction l generalizing acc with
  | nil => simp
  | cons r rest ih =>
    rw [List.foldl_cons, ih]
    by_cases hm : isModernRevision r = true
    · simp [revisionsListStep, revisionIncluded, revisionLogEntry, hm]
    · cases hv : r.validation with
      | valid =>
        simp [revisionsListStep, revisionIncluded, revisionLogEntry, hm, hv]
      | valueError =>
        simp [revisionsListStep, revisionIncluded, revisionLogEntry, hm, hv]
      | otherError msg =>
        simp [revisionsListStep, revisionIncluded, revisionLogEntry, hm, hv]

/-- C7: the revision listing is total (never raises) and returns exactly the
considered revisions that are modern (included untouched, without
validation) or legacy-and-valid; a legacy revision failing with the expected
`ValueError` is silently culled (it appears in neither the results nor the
error log), while any other validation failure is culled and its message
reported to the error log. -/
theorem revisions_get_legacy_validation (revs : List FlowRevision) :
    revisionsGet revs =
      (((consideredRevisions revs).filter revisionIncluded).map (fun r => r.revision),
        (consideredRevisions revs).flatMap revisionLogEntry) := by
  rw [revisionsGet, revisionsFold_spec]
  simp

/-- C10: the revision listing draws only from `consideredRevisions` — the at
most 100 highest-numbered revisions — so it has at most 100 entries, in
descending revision order; the considered window is the 100-prefix of a
descending-sorted permutation of all revisions, so older revisions are never
listed. -/
theorem revisions_listing_window (revs : List FlowRevision) :
    (revisionsGet revs).1.length ≤ 100 ∧
    List.Sorted (fun a b : Nat => b ≤ a) (revisionsGet revs).1 ∧
    (∀ n ∈ (revisionsGet revs).1,
      n ∈ (consideredRevisions revs).map (fun r => r.revision)) ∧
    List.Sorted revGE (List.insertionSort revGE revs) ∧
    (List.insertionSort revGE revs).Perm revs := by
  have hchar : (revisionsGet revs).1 =
      ((consideredRevisions revs).filter revisionIncluded).map (fun r => r.revision) := by
    rw [revisionsGet, revisionsFold_spec]
    simp
  have hsorted : List.Sorted revGE (List.insertionSort revGE revs) :=
    List.sorted_insertionSort revGE revs
  have hcons : List.Pairwise revGE (consideredRevisions revs) :=
    List.Pairwise.sublist (List.take_sublist 100 _) hsorted
  refine ⟨?_, ?_, ?_, hsorted, List.perm_insertionSort revGE revs⟩
  · rw [hchar]
    calc (((consideredRevisions revs).filter revisionIncluded).map
          (fun r => r.revision)).length
        = ((consideredRevisions revs).filter revisionIncluded).length :=
          List.length_map _ _
      _ ≤ (consideredRevisions revs).length := List.length_filter_le _ _
      _ ≤ 100 := by simp [consideredRevisions, List.length_take]
  · rw [hchar]
    exact List.pairwise_map.mpr (hcons.filter _)
  · rw [hchar]
    intro n hn
    rcases List.mem_map.mp hn with ⟨r, hr, rfl⟩
    exact List.mem_map_of_mem _ (List.mem_of_mem_filter hr)

/-- Witness for C10 at a two-revision flow: one modern revision numbered 1
and one legacy revision numbered 2 whose validation fails with the expected
error. -/
theorem revisions_listing_window_witness :
    (revisionsGet [⟨1, (13, 0), .valid⟩, ⟨2, (11, 12), .valueError⟩]).1.length ≤ 100 ∧
    List.Sorted (fun a b : Nat => b ≤ a)
      (revisionsGet [⟨1, (13, 0), .valid⟩, ⟨2, (11, 12), .valueError⟩]).1 ∧
    (1 : Nat) ∈
      (consideredRevisions [⟨1, (13, 0), .valid⟩, ⟨2, (11, 12), .valueError⟩]).map
        (fun r => r.revision) ∧
    List.Sorted revGE
      (List.insertionSort revGE [⟨1, (13, 0), .valid⟩, ⟨2, (11, 12), .valueError⟩]) ∧
    (List.insertionSort revGE [⟨1, (13, 0), .valid⟩, ⟨2, (11, 12), .valueError⟩]).Perm
      [⟨1, (13, 0), .valid⟩, ⟨2, (11, 12), .valueError⟩] :=
  ⟨(revisions_listing_window _).1, (revisions_listing_window _).2.1,
    (revisions_listing_window _).2.2.1 1 (by decide),
    (revisions_listing_window _).2.2.2.1, (revisions_listing_window _).2.2.2.2⟩

end Rapidpro

namespace Rapidpro

theorem mem_existingKeywords (ts : List Trigger) (kw : String) :
    kw ∈ existingKeywords ts ↔ ActiveKw ts kw := by
  simp only [existingKeywords, ActiveKw, isActiveKeywordTrigger, List.mem_map,
    List.mem_filter]
  constructor
  · rintro ⟨t, ⟨ht, hact⟩, rfl⟩
    have h2 := hact
    simp only [Bool.and_eq_true, Bool.not_eq_true'] at h2
    exact ⟨t, ht, rfl, h2.1.1, h2.1.2, h2.2⟩
  · rintro ⟨t, ht, rfl, h1, h2, h3⟩
    exact ⟨t, ⟨ht, by simp [h1, h2, h3]⟩, rfl⟩

theorem activeKw_archiveRemoved (ts : List Trigger) (removed : List String)
    (kw : String) :
    ActiveKw (archiveRemoved ts removed) kw ↔
      (ActiveKw ts kw ∧ removed.contains kw = false) := by
  simp only [ActiveKw, archiveRemoved]
  constructor
  · rintro ⟨t, ht, hkw, htype, harch, hgr⟩
    rcases List.mem_map.mp ht with ⟨u, hu, hut⟩
    by_cases hc : (removed.contains u.keyword && !u.isArchived && !u.hasGroups) = true
    · rw [if_pos hc] at hut
      rw [← hut] at harch
      simp at harch
    · rw [if_neg hc] at hut
      subst hut
      refine ⟨⟨u, hu, hkw, htype, harch, hgr⟩, ?_⟩
      rw [hkw, harch, hgr] at hc
      simpa using hc
  · rintro ⟨⟨t, ht, hkw, htype, harch, hgr⟩, hcon⟩
    have hc : (removed.contains t.keyword && !t.isArchived && !t.hasGroups) = false := by
      rw [hkw, harch, hgr, hcon]
      simp
    refine ⟨t, List.mem_map.mpr ⟨t, ht, by rw [hc]; simp⟩, hkw, htype, harch, hgr⟩

theorem activeKw_applyAdd_mono (archKws : List String) (ts : List Trigger)
    (k kw : String) (h : ActiveKw ts kw) : ActiveKw (applyAdd archKws ts k) kw := by
  rcases h with ⟨t, ht, hkw, htype, harch, hgr⟩
  unfold applyAdd
  by_cases hc : archKws.contains k = true
  · rw [if_pos hc]
    refine ⟨if t.keyword == k && !t.hasGroups then { t with isArchived := false } else t,
      List.mem_map_of_mem _ ht, ?_⟩
    by_cases h2 : (t.keyword == k && !t.hasGroups) = true
    · rw [if_pos h2]
      exact ⟨hkw, htype, rfl, hgr⟩
    · rw [if_neg h2]
      exact ⟨hkw, htype, harch, hgr⟩
  · rw [if_neg hc]
    exact ⟨t, List.mem_append_left _ ht, hkw, htype, harch, hgr⟩

theorem presentKw_applyAdd (archKws : List String) (ts : List Trigger)
    (k kw : String) (h : PresentKw ts kw) : PresentKw (applyAdd archKws ts k) kw := by
  rcases h with ⟨t, ht, hkw, htype, hgr⟩
  unfold applyAdd
  by_cases hc : archKws.contains k = true
  · rw [if_pos hc]
    refine ⟨if t.keyword == k && !t.hasGroups then { t with isArchived := false } else t,
      List.mem_map_of_mem _ ht, ?_⟩
    by_cases h2 : (t.keyword == k && !t.hasGroups) = true
    · rw [if_pos h2]
      exact ⟨hkw, htype, hgr⟩
    · rw [if_neg h2]
      exact ⟨hkw, htype, hgr⟩
  · rw [if_neg hc]
    exact ⟨t, List.mem_append_left _ ht, hkw, htype, hgr⟩

theorem activeKw_applyAdd_self (archKws : List String) (ts : List Trigger)
    (k : String) (hp : archKws.contains k = true → PresentKw ts k) :
    ActiveKw (applyAdd archKws ts k) k := by
  unfold applyAdd
  by_cases hc : archKws.contains k = true
  · rw [if_pos hc]
    rcases hp hc with ⟨t, ht, hkw, htype, hgr⟩
    refine ⟨if t.keyword == k && !t.hasGroups then { t with isArchived := false } else t,
      List.mem_map_of_mem _ ht, ?_⟩
    have h2 : (t.keyword == k && !t.hasGroups) = true := by simp [hkw, hgr]
    rw [if_pos h2]
    exact ⟨hkw, htype, rfl, hgr⟩
  · rw [if_neg hc]
    exact ⟨⟨k, true, false, false⟩, List.mem_append_right _ (by simp), rfl, rfl, rfl, rfl⟩

theorem activeKw_applyAdd_inv (archKws : List String) (ts : List Trigger)
    (k kw : String) (h : ActiveKw (applyAdd archKws ts k) kw) :
    ActiveKw ts kw ∨ kw = k := by
  unfold applyAdd at h
  by_cases hc : archKws.contains k = true
  · rw [if_pos hc] at h
    rcases h with ⟨t, ht, hkw, htype, harch, hgr⟩
    rcases List.mem_map.mp ht with ⟨u, hu, hut⟩
    by_cases h2 : (u.keyword == k && !u.hasGroups) = true
    · right
      rw [← hut] at hkw
      have h3 : u.keyword = k := by
        have h4 := h2
        simp only [Bool.and_eq_true, beq_iff_eq] at h4
        exact h4.1
      rw [if_pos h2] at hkw
      rw [← hkw]
      exact h3
    · rw [if_neg h2] at hut
      subst hut
      exact Or.inl ⟨u, hu, hkw, htype, harch, hgr⟩
  · rw [if_neg hc] at h
    rcases h with ⟨t, ht, hkw, htype, harch, hgr⟩
    rcases List.mem_append.mp ht with hl | hr
    · exact Or.inl ⟨t, hl, hkw, htype, harch, hgr⟩
    · right
      have ht2 : t = ⟨k, true, false, false⟩ := by simpa using hr
      rw [ht2] at hkw
      exact hkw.symm

theorem activeKw_foldl_mono (archKws : List String) (L : List String)
    (ts : List Trigger) (kw : String) (h : ActiveKw ts kw) :
    ActiveKw (L.foldl (applyAdd archKws) ts) kw := by
  induction L generalizing ts with
  | nil => exact h
  | cons k rest ih => exact ih _ (activeKw_applyAdd_mono archKws ts k kw h)

theorem activeKw_foldl_of_mem (archKws : List String) (L : List String)
    (ts : List Trigger) (kw : String)
    (hall : ∀ k ∈ L, archKws.contains k = true → PresentKw ts k)
    (hmem : kw ∈ L) :
    ActiveKw (L.foldl (applyAdd archKws) ts) kw := by
  induction L generalizing ts with
  | nil => cases hmem
  | cons k rest ih =>
    rcases List.mem_cons.mp hmem with rfl | hmem2
    · exact activeKw_foldl_mono archKws rest _ kw
        (activeKw_applyAdd_self archKws ts kw (hall kw (List.mem_cons_self _ _)))
    · exact ih _ (fun k2 hk2 hc => presentKw_applyAdd archKws ts k k2
        (hall k2 (List.mem_cons_of_mem _ hk2) hc)) hmem2

theorem activeKw_foldl_inv (archKws : List String) (L : List String)
    (ts : List Trigger) (kw : String)
    (h : ActiveKw (L.foldl (applyAdd archKws) ts) kw) :
    ActiveKw ts kw ∨ kw ∈ L := by
  induction L generalizing ts with
  | nil => exact Or.inl h
  | cons k rest ih =>
    rcases ih _ h with h2 | h2
    · rcases activeKw_applyAdd_inv archKws ts k kw h2 with h3 | h3
      · exact Or.inl h3
      · exact Or.inr (List.mem_cons.mpr (Or.inl h3))
    · exact Or.inr (List.mem_cons_of_mem _ h2)

theorem presentKw_of_archived (ts : List Trigger) (k : String)
    (h : (archivedKeywords ts).contains k = true) : PresentKw ts k := by
  have hm : k ∈ archivedKeywords ts := by simpa using h
  simp only [archivedKeywords, List.mem_map, List.mem_filter] at hm
  rcases hm with ⟨t, ⟨ht, hcond⟩, rfl⟩
  simp only [Bool.and_eq_true, Bool.not_eq_true'] at hcond
  exact ⟨t, ht, rfl, hcond.1.1, hcond.2⟩

theorem activeKw_reconcile (ts : List Trigger) (newKws : List String)
    (kw : String) :
    ActiveKw (reconcile ts newKws) kw ↔ kw ∈ newKws := by
  unfold reconcile
  constructor
  · intro h
    rcases activeKw_foldl_inv _ _ _ _ h with h2 | h2
    · rcases (activeKw_archiveRemoved _ _ _).mp h2 with ⟨hact, hcon⟩
      have hex : kw ∈ existingKeywords ts := (mem_existingKeywords ts kw).mpr hact
      by_contra hnot
      have hmem : kw ∈ removedKeywords ts newKws := by
        simp only [removedKeywords, List.mem_filter]
        exact ⟨hex, by simpa using hnot⟩
      have : (removedKeywords ts newKws).contains kw = true := by simpa using hmem
      rw [this] at hcon
      cases hcon
    · have hmem : kw ∈ addedKeywords ts newKws := by
        simpa using (List.mem_insertionSort _).mp h2
      simp only [addedKeywords, List.mem_dedup, List.mem_filter] at hmem
      exact hmem.1
  · intro hmem
    by_cases hex : kw ∈ existingKeywords ts
    · apply activeKw_foldl_mono
      apply (activeKw_archiveRemoved _ _ _).mpr
      refine ⟨(mem_existingKeywords ts kw).mp hex, ?_⟩
      have : kw ∉ removedKeywords ts newKws := by
        simp only [removedKeywords, List.mem_filter]
        rintro ⟨-, hcon⟩
        simp only [Bool.not_eq_true'] at hcon
        exact (by simpa using hcon : kw ∉ newKws) hmem
      simpa using this
    · apply activeKw_foldl_of_mem
      · intro k hk hc
        exact presentKw_of_archived _ k hc
      · rw [List.mem_insertionSort]
        simp only [addedKeywords, List.mem_dedup, List.mem_filter]
        exact ⟨hmem, by simpa using hex⟩

theorem existingKeywords_reconcile (ts : List Trigger) (newKws : List String)
    (kw : String) : kw ∈ existingKeywords (reconcile ts newKws) ↔ kw ∈ newKws := by
  rw [mem_existingKeywords]
  exact activeKw_reconcile ts newKws kw

theorem archiveRemoved_nil (ts : List Trigger) : archiveRemoved ts [] = ts := by
  unfold archiveRemoved
  simp

/-- C3: keyword-trigger reconciliation is idempotent: reconciling again with
the same new keyword set against the state produced by a previous
reconciliation removes nothing (so archives nothing), adds nothing (so
reactivates and creates nothing), and leaves the trigger state unchanged. -/
theorem keyword_reconciliation_idempotent (ts : List Trigger)
    (newKws : List String) :
    removedKeywords (reconcile ts newKws) newKws = [] ∧
    addedKeywords (reconcile ts newKws) newKws = [] ∧
    reconcile (reconcile ts newKws) newKws = reconcile ts newKws := by
  have hrem : removedKeywords (reconcile ts newKws) newKws = [] := by
    apply List.filter_eq_nil_iff.mpr
    intro k hk
    have hkB : k ∈ newKws := (existingKeywords_reconcile ts newKws k).mp hk
    simp [hkB]
  have hadd : addedKeywords (reconcile ts newKws) newKws = [] := by
    unfold addedKeywords
    have : newKws.filter
        (fun k => !((existingKeywords (reconcile ts newKws)).contains k)) = [] := by
      apply List.filter_eq_nil_iff.mpr
      intro k hk
      have hkE : k ∈ existingKeywords (reconcile ts newKws) :=
        (existingKeywords_reconcile ts newKws k).mpr hk
      simp [hkE]
    rw [this]
    rfl
  refine ⟨hrem, hadd, ?_⟩
  conv_lhs => rw [reconcile]
  rw [hrem, hadd, archiveRemoved_nil]
  rfl

end Rapidpro
